import Mathlib

/-!
Verification of the message addressing and rendering core of iamb
(`src/message/mod.rs`): timestamp ordering, message-key / cursor addressing,
the tagged message-event model with redaction, and the column-layout renderer.

Rust machine integers are modelled as `Nat` with explicit `% 2 ^ 64` where a
`u64` hash value is produced; fallible conversions return `Option`.  Code of
the crate that lives outside `src/message/mod.rs` (the room snapshot, the
settings object, the text-wrapping utilities, the printer, chrono and the
emoji database) is modelled from the specification and marked as such in the
corresponding doc comments.
-/

namespace Iamb

/-- Three-way comparison of `Nat`, as Rust's `Ord for u64 / usize / UInt`. -/
def natCmp (a b : Nat) : Ordering :=
  if a < b then .lt else if b < a then .gt else .eq

/-- Three-way comparison of `Char` by scalar value: Rust compares strings
byte-wise on UTF-8, which coincides with code-point order. -/
def charCmp (a b : Char) : Ordering :=
  natCmp a.toNat b.toNat

/-- Lexicographic three-way comparison of character lists: `Ord for str`. -/
def strCmpAux : List Char → List Char → Ordering
  | [], [] => .eq
  | [], _ :: _ => .lt
  | _ :: _, [] => .gt
  | a :: as, b :: bs =>
    match charCmp a b with
    | .eq => strCmpAux as bs
    | o => o

/-- `Ord for OwnedEventId`: lexicographic comparison of the identifier text. -/
def strCmp (a b : String) : Ordering :=
  strCmpAux a.data b.data

theorem natCmp_eq_iff {a b : Nat} : natCmp a b = Ordering.eq ↔ a = b := by
  unfold natCmp
  by_cases h1 : a < b
  · simp [h1]; omega
  · by_cases h2 : b < a
    · simp [h1, h2]; omega
    · simp [h1, h2]; omega

theorem natCmp_lt_iff {a b : Nat} : natCmp a b = Ordering.lt ↔ a < b := by
  unfold natCmp
  by_cases h1 : a < b
  · simp [h1]
  · by_cases h2 : b < a
    · simp [h1, h2]
    · simp [h1, h2]

theorem natCmp_gt_iff {a b : Nat} : natCmp a b = Ordering.gt ↔ b < a := by
  unfold natCmp
  by_cases h1 : a < b
  · simp [h1]; omega
  · by_cases h2 : b < a
    · simp [h1, h2]
    · simp [h1, h2]

theorem char_toNat_inj {a b : Char} (h : a.toNat = b.toNat) : a = b :=
  Char.ext (UInt32.ext h)

theorem charCmp_eq_iff {a b : Char} : charCmp a b = Ordering.eq ↔ a = b := by
  unfold charCmp
  rw [natCmp_eq_iff]
  exact ⟨char_toNat_inj, fun h => by rw [h]⟩

theorem charCmp_lt_iff {a b : Char} : charCmp a b = Ordering.lt ↔ a.toNat < b.toNat := by
  unfold charCmp; exact natCmp_lt_iff

theorem charCmp_gt_iff {a b : Char} : charCmp a b = Ordering.gt ↔ b.toNat < a.toNat := by
  unfold charCmp; exact natCmp_gt_iff

theorem charCmp_refl (a : Char) : charCmp a a = Ordering.eq :=
  charCmp_eq_iff.2 rfl

theorem strCmpAux_eq_iff : ∀ {l1 l2 : List Char}, strCmpAux l1 l2 = Ordering.eq ↔ l1 = l2
  | [], [] => by simp [strCmpAux]
  | [], _ :: _ => by simp [strCmpAux]
  | _ :: _, [] => by simp [strCmpAux]
  | a :: as, b :: bs => by
    simp only [strCmpAux]
    cases hc : charCmp a b with
    | eq =>
      have hab : a = b := charCmp_eq_iff.1 hc
      simp [hab, strCmpAux_eq_iff]
    | lt =>
      constructor
      · intro h; cases h
      · intro h
        cases h
        rw [charCmp_refl] at hc
        cases hc
    | gt =>
      constructor
      · intro h; cases h
      · intro h
        cases h
        rw [charCmp_refl] at hc
        cases hc

theorem strCmpAux_lt_iff_gt :
    ∀ {l1 l2 : List Char}, strCmpAux l1 l2 = Ordering.lt ↔ strCmpAux l2 l1 = Ordering.gt
  | [], [] => by simp [strCmpAux]
  | [], _ :: _ => by simp [strCmpAux]
  | _ :: _, [] => by simp [strCmpAux]
  | a :: as, b :: bs => by
    simp only [strCmpAux]
    cases hc : charCmp a b with
    | eq =>
      have hab : a = b := charCmp_eq_iff.1 hc
      subst hab
      rw [charCmp_refl]
      exact strCmpAux_lt_iff_gt
    | lt =>
      have : charCmp b a = Ordering.gt := charCmp_gt_iff.2 (charCmp_lt_iff.1 hc)
      simp [this]
    | gt =>
      have hba : b.toNat < a.toNat := charCmp_gt_iff.1 hc
      have : charCmp b a = Ordering.lt := charCmp_lt_iff.2 hba
      simp [this]

theorem strCmpAux_lt_trans :
    ∀ {l1 l2 l3 : List Char}, strCmpAux l1 l2 = Ordering.lt →
      strCmpAux l2 l3 = Ordering.lt → strCmpAux l1 l3 = Ordering.lt
  | [], [], _ :: _, h12, _ => by cases h12
  | [], _ :: _, [], _, h23 => by cases h23
  | [], _ :: _, _ :: _, _, _ => by simp [strCmpAux]
  | _ :: _, [], _, h12, _ => by cases h12
  | _ :: _, _ :: _, [], _, h23 => by cases h23
  | a :: as, b :: bs, c :: cs, h12, h23 => by
    simp only [strCmpAux] at h12 h23 ⊢
    cases hab : charCmp a b with
    | gt => rw [hab] at h12; cases h12
    | eq =>
      have : a = b := charCmp_eq_iff.1 hab
      subst this
      rw [hab] at h12
      cases hac : charCmp a c with
      | eq =>
        have : a = c := charCmp_eq_iff.1 hac
        subst this
        rw [hac] at h23
        exact strCmpAux_lt_trans h12 h23
      | lt => rfl
      | gt => rw [hac] at h23; cases h23
    | lt =>
      cases hbc : charCmp b c with
      | eq =>
        have : b = c := charCmp_eq_iff.1 hbc
        subst this
        simp [hab]
      | lt =>
        have : a.toNat < c.toNat :=
          Nat.lt_trans (charCmp_lt_iff.1 hab) (charCmp_lt_iff.1 hbc)
        simp [charCmp_lt_iff.2 this]
      | gt => rw [hbc] at h23; cases h23

theorem string_data_inj {a b : String} (h : a.data = b.data) : a = b := by
  cases a; cases b; cases h; rfl

theorem strCmp_eq_iff {a b : String} : strCmp a b = Ordering.eq ↔ a = b := by
  unfold strCmp
  rw [strCmpAux_eq_iff]
  exact ⟨string_data_inj, fun h => by rw [h]⟩

theorem strCmp_lt_iff_gt {a b : String} :
    strCmp a b = Ordering.lt ↔ strCmp b a = Ordering.gt :=
  strCmpAux_lt_iff_gt

theorem strCmp_lt_trans {a b c : String} (h1 : strCmp a b = Ordering.lt)
    (h2 : strCmp b c = Ordering.lt) : strCmp a c = Ordering.lt :=
  strCmpAux_lt_trans h1 h2

theorem strCmp_refl (a : String) : strCmp a a = Ordering.eq :=
  strCmp_eq_iff.2 rfl

/-- `ruma` UInt values are JavaScript-safe integers: at most `2 ^ 53 - 1`. -/
def MAX_SAFE_UINT : Nat := 2 ^ 53 - 1

/-- `MessageTimeStamp`: a server-confirmed origin timestamp in milliseconds
(`ruma` UInt, hence `≤ MAX_SAFE_UINT`) or the local-echo marker for a pending
message. -/
inductive MessageTimeStamp where
  | OriginServer (ms : Nat)
  | LocalEcho
deriving DecidableEq, Repr

/-- `impl Ord for MessageTimeStamp`. -/
def MessageTimeStamp.cmp : MessageTimeStamp → MessageTimeStamp → Ordering
  | .OriginServer _, .LocalEcho => .lt
  | .OriginServer a, .OriginServer b => natCmp a b
  | .LocalEcho, .OriginServer _ => .gt
  | .LocalEcho, .LocalEcho => .eq

/-- `MessageTimeStamp::is_local_echo`. -/
def MessageTimeStamp.is_local_echo : MessageTimeStamp → Bool
  | .LocalEcho => true
  | .OriginServer _ => false

/-- `impl TryFrom for usize` on a 64-bit platform: `LocalEcho` maps to 0,
a confirmed timestamp to its millisecond value (a UInt always fits). -/
def MessageTimeStamp.toUsize : MessageTimeStamp → Nat
  | .LocalEcho => 0
  | .OriginServer u => u

/-- `impl TryFrom for MessageTimeStamp` on a 64-bit platform: 0 maps to
`LocalEcho`; any other value converts through `UInt::try_from`, which fails
above `MAX_SAFE_UINT`. -/
def MessageTimeStamp.ofUsize (u : Nat) : Option MessageTimeStamp :=
  if u = 0 then some .LocalEcho
  else if u ≤ MAX_SAFE_UINT then some (.OriginServer u) else none

/-- `MessageKey`: the sort key of the ordered event collection — the
timestamp paired with the owned event identifier. -/
def MessageKey := MessageTimeStamp × String
deriving DecidableEq, Repr

/-- The derived tuple ordering on `MessageKey`: timestamp first, identifier
text as tie-breaker. -/
def keyCmp (a b : MessageKey) : Ordering :=
  match MessageTimeStamp.cmp a.1 b.1 with
  | .eq => strCmp a.2 b.2
  | o => o

/-- Strict order on message keys. -/
def keyLt (a b : MessageKey) : Prop := keyCmp a b = Ordering.lt

instance : DecidableRel keyLt := fun a b =>
  inferInstanceAs (Decidable (keyCmp a b = Ordering.lt))

theorem tsCmp_eq_iff {a b : MessageTimeStamp} :
    MessageTimeStamp.cmp a b = Ordering.eq ↔ a = b := by
  cases a <;> cases b <;> simp [MessageTimeStamp.cmp, natCmp_eq_iff]

theorem tsCmp_lt_iff_gt {a b : MessageTimeStamp} :
    MessageTimeStamp.cmp a b = Ordering.lt ↔ MessageTimeStamp.cmp b a = Ordering.gt := by
  cases a <;> cases b <;> simp [MessageTimeStamp.cmp, natCmp_lt_iff, natCmp_gt_iff]

theorem tsCmp_lt_trans {a b c : MessageTimeStamp}
    (h1 : MessageTimeStamp.cmp a b = Ordering.lt)
    (h2 : MessageTimeStamp.cmp b c = Ordering.lt) :
    MessageTimeStamp.cmp a c = Ordering.lt := by
  cases a <;> cases b <;> cases c <;>
    simp_all [MessageTimeStamp.cmp, natCmp_lt_iff] <;> omega

theorem tsCmp_refl (a : MessageTimeStamp) : MessageTimeStamp.cmp a a = Ordering.eq :=
  tsCmp_eq_iff.2 rfl

theorem keyCmp_eq_iff {a b : MessageKey} : keyCmp a b = Ordering.eq ↔ a = b := by
  unfold keyCmp
  cases hts : MessageTimeStamp.cmp a.1 b.1 with
  | eq =>
    have h1 : a.1 = b.1 := tsCmp_eq_iff.1 hts
    constructor
    · intro h
      have h2 : a.2 = b.2 := strCmp_eq_iff.1 h
      exact Prod.ext h1 h2
    · intro h
      rw [h]
      exact strCmp_refl _
  | lt =>
    constructor
    · intro h; cases h
    · intro h; rw [h, tsCmp_refl] at hts; cases hts
  | gt =>
    constructor
    · intro h; cases h
    · intro h; rw [h, tsCmp_refl] at hts; cases hts

theorem keyCmp_lt_iff_gt {a b : MessageKey} :
    keyCmp a b = Ordering.lt ↔ keyCmp b a = Ordering.gt := by
  unfold keyCmp
  cases hts : MessageTimeStamp.cmp a.1 b.1 with
  | eq =>
    have h1 : a.1 = b.1 := tsCmp_eq_iff.1 hts
    rw [h1, tsCmp_refl]
    exact strCmp_lt_iff_gt
  | lt =>
    have : MessageTimeStamp.cmp b.1 a.1 = Ordering.gt := tsCmp_lt_iff_gt.1 hts
    simp [this]
  | gt =>
    have : MessageTimeStamp.cmp b.1 a.1 = Ordering.lt := tsCmp_lt_iff_gt.2 hts
    simp [this]

theorem keyCmp_lt_trans {a b c : MessageKey} (h1 : keyCmp a b = Ordering.lt)
    (h2 : keyCmp b c = Ordering.lt) : keyCmp a c = Ordering.lt := by
  unfold keyCmp at h1 h2 ⊢
  cases hab : MessageTimeStamp.cmp a.1 b.1 with
  | gt => rw [hab] at h1; cases h1
  | eq =>
    have e1 : a.1 = b.1 := tsCmp_eq_iff.1 hab
    rw [hab] at h1
    cases hbc : MessageTimeStamp.cmp b.1 c.1 with
    | gt => rw [hbc] at h2; cases h2
    | eq =>
      have e2 : b.1 = c.1 := tsCmp_eq_iff.1 hbc
      rw [hbc] at h2
      rw [e1, e2, tsCmp_refl]
      exact strCmp_lt_trans h1 h2
    | lt =>
      rw [e1, hbc]
  | lt =>
    cases hbc : MessageTimeStamp.cmp b.1 c.1 with
    | gt => rw [hbc] at h2; cases h2
    | eq =>
      have e2 : b.1 = c.1 := tsCmp_eq_iff.1 hbc
      rw [← e2, hab]
    | lt =>
      have := tsCmp_lt_trans hab hbc
      rw [this]

theorem keyCmp_refl (a : MessageKey) : keyCmp a a = Ordering.eq :=
  keyCmp_eq_iff.2 rfl

theorem keyLt_trans {a b c : MessageKey} (h1 : keyLt a b) (h2 : keyLt b c) : keyLt a c :=
  keyCmp_lt_trans h1 h2

theorem keyLt_irrefl (a : MessageKey) : ¬ keyLt a a := by
  intro h
  rw [keyLt, keyCmp_refl] at h
  cases h

theorem keyLt_ne {a b : MessageKey} (h : keyLt a b) : a ≠ b := by
  intro he
  subst he
  exact keyLt_irrefl a h

/-- A render style from the host toolkit, reduced to the modifiers this module
actually toggles (bold for date headers, italic for local echoes, reversed for
selection). -/
structure Style where
  bold : Bool := false
  italic : Bool := false
  reversed : Bool := false
deriving DecidableEq, Repr

/-- `Style::patch`: merge the modifiers of two styles. -/
def Style.patch (a b : Style) : Style :=
  { bold := a.bold || b.bold
    italic := a.italic || b.italic
    reversed := a.reversed || b.reversed }

/-- A styled text fragment (`tui::text::Span`). -/
structure Span where
  content : String
  style : Style
deriving DecidableEq, Repr

/-- `Span::raw`: unstyled content. -/
def Span.raw (s : String) : Span := ⟨s, {}⟩

/-- `Span::styled`. -/
def Span.styled (s : String) (st : Style) : Span := ⟨s, st⟩

/-- One terminal row: a sequence of styled fragments (`tui::text::Spans`). -/
abbrev Spans := List Span

/-- Styled multi-line text (`tui::text::Text`), as its list of lines. -/
abbrev Text := List (List Span)

/-- The bold style used for date header lines (`BOLD_STYLE`). -/
def BOLD_STYLE : Style := { bold := true }

def USER_GUTTER : Nat := 30
def TIME_GUTTER : Nat := 12
def READ_GUTTER : Nat := 5
def MIN_MSG_LEN : Nat := 30

/-- The 30-space placeholder of the user gutter (`USER_GUTTER_EMPTY_SPAN`). -/
def USER_GUTTER_EMPTY_SPAN : Span :=
  ⟨String.mk (List.replicate USER_GUTTER (' ')), {}⟩

/-- The 12-space placeholder of the time gutter (`TIME_GUTTER_EMPTY_SPAN`). -/
def TIME_GUTTER_EMPTY_SPAN : Span :=
  ⟨String.mk (List.replicate TIME_GUTTER (' ')), {}⟩

/-- Modelled from the spec: `util::space_span` (outside this file's source), a
span of `n` spaces in the given style. -/
def space_span (n : Nat) (st : Style) : Span :=
  ⟨String.mk (List.replicate n (' ')), st⟩

/-- The `symbols::line::THICK_VERTICAL` glyph used to mark quoted replies. -/
def THICK_VERTICAL : String := "┃"

/-- Modelled from the spec: a pre-parsed styled-content tree from the external
markup collaborator, consumed opaquely through its
`render(width, style, hide_reply) -> styled lines` contract. -/
structure StyleTree where
  to_text : Nat → Style → Bool → Text

/-- Modelled from the spec: the local wall clock and timezone (chrono,
external) — the UTC epoch-second reading observed when a pending timestamp is
displayed, plus the fixed local timezone offset in seconds. -/
structure LocalClock where
  tzOffset : Int
  nowSecs : Int
deriving DecidableEq, Repr

/-- Modelled from the spec: a chrono local datetime, reduced to the data the
renderer consumes — UTC epoch seconds plus the local timezone offset. -/
structure DateTime where
  secs : Int
  tzOffset : Int
deriving DecidableEq, Repr

/-- The local calendar day of a datetime (`date_naive`), as a day number. -/
def DateTime.localDay (dt : DateTime) : Int :=
  (dt.secs + dt.tzOffset).fdiv 86400

/-- `millis_to_datetime`: truncate milliseconds to seconds and localize. -/
def millis_to_datetime (env : LocalClock) (ms : Nat) : DateTime :=
  ⟨((ms / 1000 : Nat) : Int), env.tzOffset⟩

/-- Modelled from the spec: chrono date formatting of a date header, an
injective rendering of the local calendar date standing in for
the weekday/month/day/year format string. -/
def dateLabel (d : Int) : String :=
  "<date " ++ toString d ++ ">"

/-- Modelled from the spec: chrono time-of-day formatting, an injective
rendering of the local second-of-day standing in for the HH:MM:SS format. -/
def timeLabel (t : Int) : String :=
  toString t

/-- `MessageTimeStamp::as_datetime`: a confirmed timestamp converts through
`millis_to_datetime`; a pending one resolves to the current local time. -/
def MessageTimeStamp.as_datetime (env : LocalClock) : MessageTimeStamp → DateTime
  | .OriginServer ms => millis_to_datetime env ms
  | .LocalEcho => ⟨env.nowSecs, env.tzOffset⟩

/-- `MessageTimeStamp::same_day`: compare local calendar dates. -/
def MessageTimeStamp.same_day (env : LocalClock) (a b : MessageTimeStamp) : Bool :=
  (a.as_datetime env).localDay == (b.as_datetime env).localDay

/-- `MessageTimeStamp::show_date`: the bold date header span. -/
def MessageTimeStamp.show_date (env : LocalClock) (ts : MessageTimeStamp) : Option Span :=
  some (Span.styled (dateLabel ((ts.as_datetime env).localDay)) BOLD_STYLE)

/-- `MessageTimeStamp::show_time`: a bracketed clock reading for confirmed
timestamps, nothing for a pending one. -/
def MessageTimeStamp.show_time (env : LocalClock) : MessageTimeStamp → Option Span
  | .OriginServer ms =>
    some (Span.raw ("  [" ++ timeLabel (((millis_to_datetime env ms).secs + env.tzOffset) % 86400) ++ "]"))
  | .LocalEcho => none

/-- `Relation` on message content: either a reply relation carrying the
replied-to event identifier, or some other relation kind. -/
inductive Relation where
  | Reply (event_id : String)
  | OtherRelation
deriving DecidableEq, Repr

/-- The typed sub-content of a room message (`MessageType`), carrying the data
`body_cow_content` reads. The `Text` variant also carries the optional
HTML-formatted alternative body. -/
inductive MessageType where
  | Text (body : String) (formattedHtml : Option String)
  | VerificationRequest
  | Emote (body : String)
  | Notice (body : String)
  | ServerNotice (body : String)
  | Audio (body : String)
  | File (body : String)
  | Image (body : String)
  | Video (body : String)
  | Unknown (debugKind : String)
deriving DecidableEq, Repr

/-- `RoomMessageEventContent`: the sub-content plus its optional relation. -/
structure RoomMessageEventContent where
  msgtype : MessageType
  relates_to : Option Relation
deriving DecidableEq, Repr

/-- An original (plain, unredacted) room message event, with the fields this
module reads. -/
structure OriginalRoomMessageEvent where
  event_id : String
  sender : String
  origin_server_ts : Nat
  content : RoomMessageEventContent
deriving DecidableEq, Repr

/-- `RedactedUnsigned`, collapsed to the only datum `body_cow_reason` reads:
the optional reason of the original redaction event behind
`redacted_because`. -/
structure RedactedUnsigned where
  reason : Option String
deriving DecidableEq, Repr

/-- A redacted room message event, with the fields this module reads. -/
structure RedactedRoomMessageEvent where
  event_id : String
  sender : String
  origin_server_ts : Nat
  unsigned : RedactedUnsigned
deriving DecidableEq, Repr

/-- An original encrypted event that could not be decrypted. -/
structure OriginalRoomEncryptedEvent where
  event_id : String
  sender : String
  origin_server_ts : Nat
deriving DecidableEq, Repr

/-- A redacted encrypted event. -/
structure RedactedRoomEncryptedEvent where
  event_id : String
  sender : String
  origin_server_ts : Nat
  unsigned : RedactedUnsigned
deriving DecidableEq, Repr

/-- A room redaction event (`SyncRoomRedactionEvent`), collapsed to the only
datum the modelled redaction consumes: its optional reason. -/
structure SyncRoomRedactionEvent where
  reason : Option String
deriving DecidableEq, Repr

/-- A Matrix room version identifier, opaque to this module. -/
structure RoomVersionId where
  name : String
deriving DecidableEq, Repr

/-- `MessageEvent`: the tagged representation of the possible underlying
event shapes. -/
inductive MessageEvent where
  | EncryptedOriginal (ev : OriginalRoomEncryptedEvent)
  | EncryptedRedacted (ev : RedactedRoomEncryptedEvent)
  | Original (ev : OriginalRoomMessageEvent)
  | Redacted (ev : RedactedRoomMessageEvent)
  | Local (event_id : String) (content : RoomMessageEventContent)
deriving DecidableEq, Repr

/-- `MessageEvent::event_id`. -/
def MessageEvent.event_id : MessageEvent → String
  | .EncryptedOriginal ev => ev.event_id
  | .EncryptedRedacted ev => ev.event_id
  | .Original ev => ev.event_id
  | .Redacted ev => ev.event_id
  | .Local event_id _ => event_id

/-- `MessageEvent::content`: only plain originals and local echoes expose
message content. -/
def MessageEvent.content : MessageEvent → Option RoomMessageEventContent
  | .EncryptedOriginal _ => none
  | .Original ev => some ev.content
  | .EncryptedRedacted _ => none
  | .Redacted _ => none
  | .Local _ content => some content

/-- `MessageEvent::is_emote`. -/
def MessageEvent.is_emote (e : MessageEvent) : Bool :=
  match e.content with
  | some c =>
    match c.msgtype with
    | .Emote _ => true
    | _ => false
  | none => false

/-- Whether the event is in the `Original` variant. -/
def MessageEvent.isOriginal : MessageEvent → Bool
  | .Original _ => true
  | _ => false

/-- Whether the event is in the `Redacted` variant. -/
def MessageEvent.isRedacted : MessageEvent → Bool
  | .Redacted _ => true
  | _ => false

/-- Debug-quote a string, as the `{r:?}` formatting of the redaction reason. -/
def debugQuote (s : String) : String :=
  "\"" ++ s ++ "\""

/-- `body_cow_content`: derive the plain body text from typed sub-content. -/
def body_cow_content (content : RoomMessageEventContent) : String :=
  match content.msgtype with
  | .Text body _ => body
  | .VerificationRequest => "[Verification Request]"
  | .Emote body => body
  | .Notice body => body
  | .ServerNotice body => body
  | .Audio body => "[Attached Audio: " ++ body ++ "]"
  | .File body => "[Attached File: " ++ body ++ "]"
  | .Image body => "[Attached Image: " ++ body ++ "]"
  | .Video body => "[Attached Video: " ++ body ++ "]"
  | .Unknown kind => "[Unknown message type: " ++ kind ++ "]"

/-- `body_cow_reason`: body of a redacted event from the redaction reason. -/
def body_cow_reason (unsigned : RedactedUnsigned) : String :=
  match unsigned.reason with
  | some r => "[Redacted: " ++ debugQuote r ++ "]"
  | none => "[Redacted]"

/-- `MessageEvent::body`. -/
def MessageEvent.body : MessageEvent → String
  | .EncryptedOriginal _ => "[Unable to decrypt message]"
  | .Original ev => body_cow_content ev.content
  | .EncryptedRedacted ev => body_cow_reason ev.unsigned
  | .Redacted ev => body_cow_reason ev.unsigned
  | .Local _ content => body_cow_content content

/-- Modelled from the spec: `ruma`'s `Redact::redact` for an original room
message event is external library code; per the spec, redaction converts the
event into a redacted one "carrying the redaction's reason", and a redaction
updates "the value at an existing key", so the event identifier, sender and
origin timestamp are retained while the content is dropped. -/
def redactOriginalEvent (ev : OriginalRoomMessageEvent)
    (redaction : SyncRoomRedactionEvent) (_version : RoomVersionId) :
    RedactedRoomMessageEvent :=
  { event_id := ev.event_id
    sender := ev.sender
    origin_server_ts := ev.origin_server_ts
    unsigned := { reason := redaction.reason } }

/-- `MessageEvent::redact`: only the `Original` variant transitions, in place,
to `Redacted`; every other variant is left unchanged. -/
def MessageEvent.redact (self : MessageEvent) (redaction : SyncRoomRedactionEvent)
    (version : RoomVersionId) : MessageEvent :=
  match self with
  | .EncryptedOriginal _ => self
  | .EncryptedRedacted _ => self
  | .Redacted _ => self
  | .Local _ _ => self
  | .Original ev => .Redacted (redactOriginalEvent ev redaction version)

/-- `Message`: the underlying event, its sender, timestamp, attachment
download flag, and the optional pre-parsed styled content. -/
structure Message where
  event : MessageEvent
  sender : String
  timestamp : MessageTimeStamp
  downloaded : Bool
  html : Option StyleTree

/-- Modelled from the spec: the room snapshot (`RoomInfo`, defined outside
this file's source). `messages` is the ascending key sequence of the ordered
event collection (its BTreeMap key order); `events` is `get_event`,
`reactions` is `get_reactions` (reaction key with its count), and `receipts`
is the read-receipt table consulted by the four-column layout. -/
structure RoomInfo where
  messages : List MessageKey
  events : String → Option Message
  reactions : String → List (String × Nat)
  receipts : String → Option (List String)

/-- `RoomInfo::get_event`. -/
def RoomInfo.get_event (info : RoomInfo) (event_id : String) : Option Message :=
  info.events event_id

/-- `RoomInfo::get_reactions`. -/
def RoomInfo.get_reactions (info : RoomInfo) (event_id : String) : List (String × Nat) :=
  info.reactions event_id

/-- The generic viewport's 2D cursor: `get_y` is the row, `get_x` the column.
Both are `usize`; the platform is 64-bit. -/
structure Cursor where
  y : Nat
  x : Nat
deriving DecidableEq, Repr

/-- `MessageCursor`: an optional message key (`None` meaning the most recent
message) plus a row offset into the rendered text of that message. -/
structure MessageCursor where
  timestamp : Option MessageKey
  text_row : Nat
deriving DecidableEq, Repr

/-- `impl From for MessageCursor` over a `MessageKey`. -/
def MessageCursor.fromKey (key : MessageKey) : MessageCursor :=
  { timestamp := some key, text_row := 0 }

/-- `MessageCursor::latest`. -/
def MessageCursor.latest : MessageCursor :=
  { timestamp := none, text_row := 0 }

/-- `MessageCursor::to_key`: a `Some` key is returned as-is; the `None`
cursor resolves to the collection's last (greatest) key. -/
def MessageCursor.to_key (self : MessageCursor) (info : RoomInfo) : Option MessageKey :=
  match self.timestamp with
  | some key => some key
  | none => info.messages.getLast?

/-- `MessageCursor::to_cursor`: row is the integer form of the timestamp,
column the 64-bit identifier hash. The `DefaultHasher` of the standard
library is opaque external code, modelled by the parameter `h` narrowed to
64 bits. -/
def MessageCursor.to_cursor (h : String → Nat) (self : MessageCursor)
    (info : RoomInfo) : Option Cursor :=
  match self.to_key info with
  | none => none
  | some (ts, event_id) => some ⟨ts.toUsize, h event_id % 2 ^ 64⟩

/-- `BTreeMap::range(start..)` over the ascending key sequence: drop the keys
strictly below `start`. -/
def rangeFrom (start : MessageKey) (keys : List MessageKey) : List MessageKey :=
  keys.dropWhile (fun k => decide (keyCmp k start = Ordering.lt))

/-- The scan loop of `MessageCursor::from_cursor`: return the first key whose
identifier hash equals the target column, remember the first candidate as a
fallback, and stop after the first candidate whose timestamp strictly exceeds
the target. -/
def fromCursorLoop (h : String → Nat) (evHash : Nat) (tsStart : MessageTimeStamp) :
    List MessageKey → Option MessageCursor → Option MessageCursor
  | [], mc => mc
  | (ts, event_id) :: rest, mc =>
    if h event_id % 2 ^ 64 == evHash then
      some (MessageCursor.fromKey (ts, event_id))
    else
      let mc := if mc.isNone then some (MessageCursor.fromKey (ts, event_id)) else mc
      if MessageTimeStamp.cmp ts tsStart = Ordering.gt then mc
      else fromCursorLoop h evHash tsStart rest mc

/-- `MessageCursor::from_cursor`: reconstruct a timestamp from the row (which
fails above the UInt range), then scan the keys at or after
`(timestamp, "$")` with `fromCursorLoop`. -/
def MessageCursor.from_cursor (h : String → Nat) (cursor : Cursor)
    (info : RoomInfo) : Option MessageCursor :=
  match MessageTimeStamp.ofUsize cursor.y with
  | none => none
  | some tsStart =>
    fromCursorLoop h cursor.x tsStart (rangeFrom (tsStart, "$") info.messages) none

/-- The scanned window of the key range: every candidate up to and including
the first one whose timestamp strictly exceeds the target. -/
def scanWindow (tsStart : MessageTimeStamp) : List MessageKey → List MessageKey
  | [] => []
  | k :: rest =>
    if MessageTimeStamp.cmp k.1 tsStart = Ordering.gt then [k]
    else k :: scanWindow tsStart rest

/-- The reverse lookup as the specification words it: scan the keys in
ascending order from `(timestamp, "$")`; return the first key in the scanned
window whose 64-bit identifier hash equals the column; otherwise the first
candidate seen; `none` when no candidate at or after the start exists. -/
def from_cursor_spec (h : String → Nat) (col : Nat) (tsStart : MessageTimeStamp)
    (info : RoomInfo) : Option MessageCursor :=
  let cands := rangeFrom (tsStart, "$") info.messages
  match (scanWindow tsStart cands).find? (fun k => h k.2 % 2 ^ 64 == col) with
  | some k => some (MessageCursor.fromKey k)
  | none => cands.head?.map MessageCursor.fromKey

theorem fromCursorLoop_some (h : String → Nat) (evHash : Nat)
    (tsStart : MessageTimeStamp) (l : List MessageKey) (m0 : MessageCursor) :
    fromCursorLoop h evHash tsStart l (some m0) =
      match (scanWindow tsStart l).find? (fun k => h k.2 % 2 ^ 64 == evHash) with
      | some k => some (MessageCursor.fromKey k)
      | none => some m0 := by
  induction l with
  | nil => simp [fromCursorLoop, scanWindow]
  | cons k rest ih =>
    obtain ⟨ts, event_id⟩ := k
    by_cases hh : h event_id % 2 ^ 64 = evHash
    · by_cases hgt : MessageTimeStamp.cmp ts tsStart = Ordering.gt
      · simp [fromCursorLoop, scanWindow, hh, hgt, List.find?, beq_iff_eq, -Nat.reducePow]
      · simp [fromCursorLoop, scanWindow, hh, hgt, List.find?, beq_iff_eq, -Nat.reducePow]
    · by_cases hgt : MessageTimeStamp.cmp ts tsStart = Ordering.gt
      · simp [fromCursorLoop, scanWindow, hh, hgt, List.find?, beq_iff_eq, -Nat.reducePow]
      · simp [fromCursorLoop, scanWindow, hh, hgt, List.find?, ih, beq_iff_eq, -Nat.reducePow]

theorem fromCursorLoop_none (h : String → Nat) (evHash : Nat)
    (tsStart : MessageTimeStamp) (l : List MessageKey) :
    fromCursorLoop h evHash tsStart l none =
      match (scanWindow tsStart l).find? (fun k => h k.2 % 2 ^ 64 == evHash) with
      | some k => some (MessageCursor.fromKey k)
      | none => l.head?.map MessageCursor.fromKey := by
  cases l with
  | nil => simp [fromCursorLoop, scanWindow]
  | cons k rest =>
    obtain ⟨ts, event_id⟩ := k
    by_cases hh : h event_id % 2 ^ 64 = evHash
    · by_cases hgt : MessageTimeStamp.cmp ts tsStart = Ordering.gt
      · simp [fromCursorLoop, scanWindow, hh, hgt, List.find?, beq_iff_eq, -Nat.reducePow]
      · simp [fromCursorLoop, scanWindow, hh, hgt, List.find?, beq_iff_eq, -Nat.reducePow]
    · by_cases hgt : MessageTimeStamp.cmp ts tsStart = Ordering.gt
      · simp [fromCursorLoop, scanWindow, hh, hgt, List.find?, beq_iff_eq, -Nat.reducePow]
      · simp [fromCursorLoop, scanWindow, hh, hgt, List.find?, beq_iff_eq, -Nat.reducePow,
          fromCursorLoop_some h evHash tsStart rest]

theorem mem_dropWhile_of_mem {α : Type} (p : α → Bool) {l : List α} {a : α}
    (hm : a ∈ l) (ha : p a = false) : a ∈ l.dropWhile p := by
  induction l with
  | nil => cases hm
  | cons b t ih =>
    rw [List.dropWhile_cons]
    by_cases hb : p b = true
    · rcases List.mem_cons.1 hm with he | hmem
      · rw [he] at ha; rw [ha] at hb; cases hb
      · simp [hb]; exact ih hmem
    · simp [hb]
      rcases List.mem_cons.1 hm with he | hmem
      · exact Or.inl he
      · exact Or.inr hmem

theorem dropWhile_not_lt {l : List MessageKey} (hs : l.Pairwise keyLt)
    (start : MessageKey) {k : MessageKey}
    (hk : k ∈ l.dropWhile (fun x => decide (keyCmp x start = Ordering.lt))) :
    ¬ keyLt k start := by
  induction l with
  | nil => simp [List.dropWhile] at hk
  | cons b t ih =>
    rw [List.dropWhile_cons] at hk
    rcases List.pairwise_cons.1 hs with ⟨hb, ht⟩
    by_cases hbs : keyCmp b start = Ordering.lt
    · rw [decide_eq_true hbs] at hk
      rw [if_pos rfl] at hk
      exact ih ht hk
    · rw [decide_eq_false hbs] at hk
      simp only [Bool.false_eq_true, if_false] at hk
      rcases List.mem_cons.1 hk with he | hmem
      · rw [he]; exact hbs
      · intro hlt
        exact hbs (keyLt_trans (hb k hmem) hlt)

theorem fromCursorLoop_hits (h : String → Nat) (tsStart : MessageTimeStamp)
    (K : MessageKey) :
    ∀ (l1 l2 : List MessageKey) (mc : Option MessageCursor),
      (∀ k ∈ l1, (h k.2 % 2 ^ 64 == h K.2 % 2 ^ 64) = false) →
      (∀ k ∈ l1, MessageTimeStamp.cmp k.1 tsStart ≠ Ordering.gt) →
      fromCursorLoop h (h K.2 % 2 ^ 64) tsStart (l1 ++ K :: l2) mc =
        some (MessageCursor.fromKey K)
  | [], l2, mc, _, _ => by
    obtain ⟨ts, event_id⟩ := K
    simp [fromCursorLoop]
  | k :: l1, l2, mc, hh, hts => by
    obtain ⟨ts, event_id⟩ := k
    have h1 := hh (ts, event_id) (List.mem_cons_self _ _)
    have h2 := hts (ts, event_id) (List.mem_cons_self _ _)
    simp only [List.cons_append, fromCursorLoop, h1]
    simp only [Bool.false_eq_true, if_false, if_neg h2]
    exact fromCursorLoop_hits h tsStart K l1 l2 _
      (fun k hk => hh k (List.mem_cons_of_mem _ hk))
      (fun k hk => hts k (List.mem_cons_of_mem _ hk))

/-- Well-formedness of a confirmed timestamp as the `ruma` UInt type
guarantees it. -/
def tsWithinUInt : MessageTimeStamp → Prop
  | .OriginServer u => u ≤ MAX_SAFE_UINT
  | .LocalEcho => True

instance : DecidablePred tsWithinUInt := fun ts =>
  match ts with
  | .OriginServer u => inferInstanceAs (Decidable (u ≤ MAX_SAFE_UINT))
  | .LocalEcho => inferInstanceAs (Decidable True)

/-- Well-formedness of a key as the Rust types guarantee it: the confirmed
timestamp is a `ruma` UInt, and the identifier starts with the sigil of the
Matrix event-id grammar, so the minimal identifier `$` sorts at or below
it. -/
def validKey (k : MessageKey) : Prop :=
  tsWithinUInt k.1 ∧ strCmp ("$") k.2 ≠ Ordering.gt

instance : DecidablePred validKey := fun _ =>
  inferInstanceAs (Decidable (_ ∧ _))

theorem ofUsize_toUsize {ts : MessageTimeStamp} (hvalid : tsWithinUInt ts)
    (hnz : ts ≠ MessageTimeStamp.OriginServer 0) :
    MessageTimeStamp.ofUsize ts.toUsize = some ts := by
  cases ts with
  | LocalEcho => simp [MessageTimeStamp.toUsize, MessageTimeStamp.ofUsize]
  | OriginServer u =>
    have hu : u ≤ MAX_SAFE_UINT := hvalid
    have hune : ¬ u = 0 := fun he => hnz (by rw [he])
    simp [MessageTimeStamp.toUsize, MessageTimeStamp.ofUsize, hune, hu]

theorem getLast_is_max {l : List MessageKey} (hs : l.Pairwise keyLt) (hne : l ≠ []) :
    ∃ K, l.getLast? = some K ∧ K ∈ l ∧ ∀ k ∈ l, keyCmp k K ≠ Ordering.gt := by
  induction l with
  | nil => cases hne rfl
  | cons a t ih =>
    rcases List.pairwise_cons.1 hs with ⟨ha, ht⟩
    cases t with
    | nil =>
      refine ⟨a, rfl, List.mem_singleton.2 rfl, ?_⟩
      intro k hk
      rw [List.mem_singleton.1 hk, keyCmp_refl]
      simp
    | cons b t2 =>
      obtain ⟨K, hlast, hmem, hmax⟩ := ih ht (by simp)
      refine ⟨K, ?_, List.mem_cons_of_mem _ hmem, ?_⟩
      · rw [List.getLast?_cons_cons]; exact hlast
      · intro k hk
        rcases List.mem_cons.1 hk with he | hmem2
        · subst he
          have hlt : keyLt k K := ha K hmem
          rw [keyLt] at hlt
          rw [hlt]
          simp
        · exact hmax k hmem2

/-- C4: `to_key` resolves a `Some`-keyed logical cursor to its own key; the
`None`-keyed ("latest") cursor resolves to the maximum key of a non-empty
collection and to nothing for an empty one. -/
theorem to_key_latest_resolution (info : RoomInfo)
    (hsort : info.messages.Pairwise keyLt) :
    (∀ (K : MessageKey) (r : Nat), MessageCursor.to_key ⟨some K, r⟩ info = some K) ∧
    (info.messages = [] → ∀ r : Nat, MessageCursor.to_key ⟨none, r⟩ info = none) ∧
    (info.messages ≠ [] → ∀ r : Nat, ∃ K,
      MessageCursor.to_key ⟨none, r⟩ info = some K ∧ K ∈ info.messages ∧
        ∀ k ∈ info.messages, keyCmp k K ≠ Ordering.gt) := by
  refine ⟨fun K r => rfl, ?_, ?_⟩
  · intro he r
    simp [MessageCursor.to_key, he]
  · intro hne r
    obtain ⟨K, hlast, hmem, hmax⟩ := getLast_is_max hsort hne
    exact ⟨K, by simp [MessageCursor.to_key, hlast], hmem, hmax⟩

/-- C3: the reverse lookup scans the keys in ascending order from
`(timestamp-from-row, "$")`, returns the first key in the scanned window
whose 64-bit identifier hash equals the column, else the first candidate
seen, stopping after the first candidate whose timestamp strictly exceeds the
target, and returns nothing when no candidate at or after the start
exists. -/
theorem from_cursor_scan_spec (h : String → Nat) (cursor : Cursor)
    (info : RoomInfo) (tsStart : MessageTimeStamp)
    (hy : MessageTimeStamp.ofUsize cursor.y = some tsStart) :
    MessageCursor.from_cursor h cursor info = from_cursor_spec h cursor.x tsStart info := by
  unfold MessageCursor.from_cursor from_cursor_spec
  rw [hy]
  exact fromCursorLoop_none h cursor.x tsStart _

/-- C1 (amended): a key present in the collection round-trips through
`to_cursor` and `from_cursor` provided its timestamp is not the confirmed
value 0 (which aliases the pending marker in the integer encoding) and the
64-bit identifier hash separates the collection's keys. -/
theorem to_from_cursor_roundtrip (h : String → Nat) (info : RoomInfo) (K : MessageKey)
    (hsort : info.messages.Pairwise keyLt)
    (hvalid : ∀ k ∈ info.messages, validKey k)
    (hmem : K ∈ info.messages)
    (hnz : K.1 ≠ MessageTimeStamp.OriginServer 0)
    (hinj : ∀ k1 ∈ info.messages, ∀ k2 ∈ info.messages,
      h k1.2 % 2 ^ 64 = h k2.2 % 2 ^ 64 → k1 = k2) :
    ((MessageCursor.fromKey K).to_cursor h info).bind
      (fun c => MessageCursor.from_cursor h c info) = some (MessageCursor.fromKey K) := by
  obtain ⟨ts, event_id⟩ := K
  have hvK := hvalid (ts, event_id) hmem
  have hy : MessageTimeStamp.ofUsize (MessageTimeStamp.toUsize ts) = some ts :=
    ofUsize_toUsize hvK.1 hnz
  show MessageCursor.from_cursor h ⟨ts.toUsize, h event_id % 2 ^ 64⟩ info =
    some (MessageCursor.fromKey (ts, event_id))
  unfold MessageCursor.from_cursor
  rw [hy]
  have hKstart : ¬ keyLt (ts, event_id) (ts, ("$")) := by
    intro hlt
    simp only [keyLt, keyCmp, tsCmp_refl] at hlt
    exact hvK.2 (strCmp_lt_iff_gt.1 hlt)
  have hmemRange : (ts, event_id) ∈ rangeFrom (ts, ("$")) info.messages :=
    mem_dropWhile_of_mem _ hmem (decide_eq_false hKstart)
  obtain ⟨l1, l2, hdecomp⟩ := List.append_of_mem hmemRange
  have hsortRange : (rangeFrom (ts, ("$")) info.messages).Pairwise keyLt :=
    List.Pairwise.sublist (List.dropWhile_sublist _) hsort
  have hsubset : ∀ k ∈ rangeFrom (ts, ("$")) info.messages, k ∈ info.messages :=
    fun k hk => (List.dropWhile_sublist _).subset hk
  have hl1lt : ∀ k ∈ l1, keyLt k (ts, event_id) := by
    intro k hk
    have hp := hsortRange
    rw [hdecomp] at hp
    rcases List.pairwise_append.1 hp with ⟨_, _, hcross⟩
    exact hcross k hk _ (List.mem_cons_self _ _)
  have hl1mem : ∀ k ∈ l1, k ∈ rangeFrom (ts, ("$")) info.messages := by
    intro k hk
    rw [hdecomp]
    exact List.mem_append_left _ hk
  have hl1ts : ∀ k ∈ l1, MessageTimeStamp.cmp k.1 ts ≠ Ordering.gt := by
    intro k hk
    have hnotlt : ¬ keyLt k (ts, ("$")) := dropWhile_not_lt hsort _ (hl1mem k hk)
    have hklt := hl1lt k hk
    cases hts : MessageTimeStamp.cmp k.1 ts with
    | lt =>
      exfalso
      apply hnotlt
      simp [keyLt, keyCmp, hts]
    | eq => simp
    | gt =>
      exfalso
      rw [keyLt] at hklt
      simp [keyCmp, hts] at hklt
  have hl1hash : ∀ k ∈ l1, (h k.2 % 2 ^ 64 == h event_id % 2 ^ 64) = false := by
    intro k hk
    have hkm : k ∈ info.messages := hsubset k (hl1mem k hk)
    have hne : k ≠ (ts, event_id) := keyLt_ne (hl1lt k hk)
    have hnh : ¬ (h k.2 % 2 ^ 64 = h event_id % 2 ^ 64) :=
      fun he => hne (hinj k hkm _ hmem he)
    exact beq_eq_false_iff_ne.2 hnh
  show fromCursorLoop h (h event_id % 2 ^ 64) ts
      (rangeFrom (ts, ("$")) info.messages) none =
    some (MessageCursor.fromKey (ts, event_id))
  rw [hdecomp]
  exact fromCursorLoop_hits h ts (ts, event_id) l1 l2 none hl1hash hl1ts

/-- C2: the comparison on `MessageTimeStamp` is a total order (comparison of
equals is `eq` and conversely, `lt` of a pair is `gt` of its swap, and `lt`
is transitive) in which every confirmed timestamp is strictly below the
pending marker, the pending marker is strictly above every confirmed
timestamp, two pending timestamps compare equal, and two confirmed
timestamps compare by their numeric millisecond values. -/
theorem timestamp_total_order :
    (∀ a b : MessageTimeStamp, MessageTimeStamp.cmp a b = Ordering.eq ↔ a = b) ∧
    (∀ a b : MessageTimeStamp, MessageTimeStamp.cmp a b = Ordering.lt ↔
      MessageTimeStamp.cmp b a = Ordering.gt) ∧
    (∀ a b c : MessageTimeStamp, MessageTimeStamp.cmp a b = Ordering.lt →
      MessageTimeStamp.cmp b c = Ordering.lt → MessageTimeStamp.cmp a c = Ordering.lt) ∧
    (∀ u : Nat,
      MessageTimeStamp.cmp (MessageTimeStamp.OriginServer u) MessageTimeStamp.LocalEcho =
        Ordering.lt) ∧
    (∀ u : Nat,
      MessageTimeStamp.cmp MessageTimeStamp.LocalEcho (MessageTimeStamp.OriginServer u) =
        Ordering.gt) ∧
    (MessageTimeStamp.cmp MessageTimeStamp.LocalEcho MessageTimeStamp.LocalEcho =
      Ordering.eq) ∧
    (∀ a b : Nat,
      MessageTimeStamp.cmp (MessageTimeStamp.OriginServer a)
        (MessageTimeStamp.OriginServer b) = natCmp a b) :=
  ⟨fun _ _ => tsCmp_eq_iff, fun _ _ => tsCmp_lt_iff_gt, fun _ _ _ => tsCmp_lt_trans,
    fun _ => rfl, fun _ => rfl, rfl, fun _ _ => rfl⟩

/-- C5: applying a redaction leaves the encrypted, already-redacted and
locally-pending variants completely unchanged; only the `Original` variant
transitions, in place, to `Redacted`, and a redacted event never transitions
back to an original one. -/
theorem redact_only_original_transitions :
    (∀ (red : SyncRoomRedactionEvent) (ver : RoomVersionId) ev,
      (MessageEvent.EncryptedOriginal ev).redact red ver = MessageEvent.EncryptedOriginal ev) ∧
    (∀ (red : SyncRoomRedactionEvent) (ver : RoomVersionId) ev,
      (MessageEvent.EncryptedRedacted ev).redact red ver = MessageEvent.EncryptedRedacted ev) ∧
    (∀ (red : SyncRoomRedactionEvent) (ver : RoomVersionId) ev,
      (MessageEvent.Redacted ev).redact red ver = MessageEvent.Redacted ev) ∧
    (∀ (red : SyncRoomRedactionEvent) (ver : RoomVersionId) event_id content,
      (MessageEvent.Local event_id content).redact red ver =
        MessageEvent.Local event_id content) ∧
    (∀ (red : SyncRoomRedactionEvent) (ver : RoomVersionId) ev,
      (MessageEvent.Original ev).redact red ver =
        MessageEvent.Redacted (redactOriginalEvent ev red ver)) ∧
    (∀ (red : SyncRoomRedactionEvent) (ver : RoomVersionId) (m : MessageEvent),
      (m.redact red ver).isOriginal = false ∨ m.redact red ver = m) :=
  ⟨fun _ _ _ => rfl, fun _ _ _ => rfl, fun _ _ _ => rfl, fun _ _ _ _ => rfl,
    fun _ _ _ => rfl,
    fun red ver m => by
      cases m with
      | Original ev => exact Or.inl rfl
      | EncryptedOriginal ev => exact Or.inr rfl
      | EncryptedRedacted ev => exact Or.inr rfl
      | Redacted ev => exact Or.inr rfl
      | Local event_id content => exact Or.inr rfl⟩

/-- C10: redaction never changes the event identifier, across the
original-to-redacted transition as well as across the no-op cases. -/
theorem redact_preserves_event_id (m : MessageEvent)
    (red : SyncRoomRedactionEvent) (ver : RoomVersionId) :
    (m.redact red ver).event_id = m.event_id := by
  cases m <;> rfl

/-- Modelled from the spec: the render settings (`config::ApplicationSettings`,
outside this file's source) — the boolean tunables this module consumes plus
the per-user display-name span and single-character glyph span lookups. -/
structure ApplicationSettings where
  read_receipt_display : Bool
  reaction_display : Bool
  reaction_shortcode_display : Bool
  user_span : String → Span
  user_char : String → Span

/-- `Message::sender_span` (`settings.get_user_span`). -/
def Message.sender_span (m : Message) (settings : ApplicationSettings) : Span :=
  settings.user_span m.sender

/-- `Message::reply_to`: only plain originals and local echoes may declare a
reply relation. -/
def Message.reply_to (m : Message) : Option String :=
  let contentOpt :=
    match m.event with
    | .EncryptedOriginal _ => none
    | .EncryptedRedacted _ => none
    | .Local _ content => some content
    | .Original ev => some ev.content
    | .Redacted _ => none
  match contentOpt with
  | none => none
  | some content =>
    match content.relates_to with
    | some (Relation.Reply event_id) => some event_id
    | _ => none

/-- `Message::get_render_style`: reverse video when selected, italic for a
local echo, composed independently. -/
def Message.get_render_style (m : Message) (selected : Bool) : Style :=
  let style : Style := {}
  let style := if selected then { style with reversed := true } else style
  if m.timestamp.is_local_echo then { style with italic := true } else style

/-- Byte-level prefix slice of a UTF-8 string, Rust's `&s[..n]`: `none`
models the panic raised when `n` is not on a character boundary. -/
def slicePrefixBytes : List Char → Nat → Option (List Char)
  | _, 0 => some []
  | [], _ + 1 => none
  | c :: cs, n + 1 =>
    if c.utf8Size ≤ n + 1 then
      (slicePrefixBytes cs (n + 1 - c.utf8Size)).map (fun l => c :: l)
    else none

/-- Pad a string on the left with spaces to the given width, as the
right-aligning Rust format specifier. -/
def padLeftChars (s : String) (w : Nat) : String :=
  String.mk (List.replicate (w - s.length) (' ')) ++ s

/-- Pad a string on the right with spaces to the given width, as the
left-aligning Rust format specifier. -/
def padRightChars (s : String) (w : Nat) : String :=
  s ++ String.mk (List.replicate (w - s.length) (' '))

/-- `Message::show_sender`: suppressed when the predecessor has the same
sender on the same calendar day and the message is not an emote; otherwise
the display name is byte-sliced to at most 28 bytes (the outer `none` models
the panic when byte 28 is not a character boundary) and padded to the
28-column sender field plus two spaces. -/
def Message.show_sender (m : Message) (env : LocalClock) (prev : Option Message)
    (align_right : Bool) (settings : ApplicationSettings) : Option (Option Span) :=
  let suppress :=
    match prev with
    | some p =>
      m.sender == p.sender && MessageTimeStamp.same_day env m.timestamp p.timestamp &&
        !m.event.is_emote
    | none => false
  if suppress then some none
  else
    let sp := m.sender_span settings
    let stop := min sp.content.utf8ByteSize 28
    match slicePrefixBytes sp.content.data stop with
    | none => none
    | some cs =>
      let s := String.mk cs
      let sender :=
        if align_right then padLeftChars s 28 ++ ("  ")
        else padRightChars s 28 ++ ("  ")
      some (some (Span.styled sender sp.style))

/-- `MessageColumns`: how many layout columns to print. -/
inductive MessageColumns where
  | Four
  | Three
  | Two
  | One
deriving DecidableEq, Repr

/-- `MessageFormatter`: the per-render layout state. -/
structure MessageFormatter where
  settings : ApplicationSettings
  cols : MessageColumns
  orig : Nat
  fill : Nat
  user : Option Span
  time : Option Span
  date : Option Span
  read : List String

/-- `MessageFormatter::push_spans`: emit the pending centered date header if
any, then lay the given fragments out according to the column mode,
consuming the pending sender span, time span and (in four-column mode) up to
three read receipts. -/
def MessageFormatter.push_spans (fmtr : MessageFormatter) (spans : List Span)
    (style : Style) (text : Text) : MessageFormatter × Text :=
  let dated :=
    match fmtr.date with
    | some date =>
      let len := date.content.utf8ByteSize
      let padding := fmtr.orig - len
      let leading := space_span (padding / 2) {}
      let trailing := space_span (padding - padding / 2) {}
      ({ fmtr with date := none }, text ++ [[leading, date, trailing]])
    | none => (fmtr, text)
  let fmtr := dated.1
  let text := dated.2
  match fmtr.cols with
  | .Four =>
    let user := fmtr.user.getD USER_GUTTER_EMPTY_SPAN
    let time := fmtr.time.getD TIME_GUTTER_EMPTY_SPAN
    let a :=
      match fmtr.read.head? with
      | some u => fmtr.settings.user_char u
      | none => Span.raw (" ")
    let b :=
      match (fmtr.read.drop 1).head? with
      | some u => fmtr.settings.user_char u
      | none => Span.raw (" ")
    let c :=
      match (fmtr.read.drop 2).head? with
      | some u => fmtr.settings.user_char u
      | none => Span.raw (" ")
    let line := user :: spans ++ [time, Span.raw (" "), c, b, a, Span.raw (" ")]
    ({ fmtr with user := none, time := none, read := fmtr.read.drop 3 }, text ++ [line])
  | .Three =>
    let user := fmtr.user.getD USER_GUTTER_EMPTY_SPAN
    let time := fmtr.time.getD (Span.raw (""))
    let line := user :: spans ++ [time]
    ({ fmtr with user := none, time := none }, text ++ [line])
  | .Two =>
    let user := fmtr.user.getD USER_GUTTER_EMPTY_SPAN
    let line := user :: spans
    ({ fmtr with user := none }, text ++ [line])
  | .One =>
    let text :=
      match fmtr.user with
      | some user => text ++ [[user]]
      | none => text
    let leading := space_span 2 style
    ({ fmtr with user := none }, text ++ [leading :: spans])

/-- `MessageFormatter::push_text`: push every line of a text block. -/
def MessageFormatter.push_text (fmtr : MessageFormatter) (append : Text)
    (style : Style) (text : Text) : MessageFormatter × Text :=
  append.foldl (fun acc line => acc.1.push_spans line style acc.2) (fmtr, text)

/-- `Message::get_render_format`: choose the column mode widest-first from
the available width and the read-receipt setting, compute the body fill
width, and collect the pending date header, sender span, time span and read
receipts. The `Option` threads the possible `show_sender` panic. -/
def Message.get_render_format (m : Message) (env : LocalClock) (prev : Option Message)
    (width : Nat) (info : RoomInfo) (settings : ApplicationSettings) :
    Option MessageFormatter :=
  let orig := width
  let date :=
    match prev with
    | some p =>
      if MessageTimeStamp.same_day env p.timestamp m.timestamp then none
      else m.timestamp.show_date env
    | none => m.timestamp.show_date env
  if USER_GUTTER + TIME_GUTTER + READ_GUTTER + MIN_MSG_LEN ≤ width ∧
      settings.read_receipt_display = true then
    match m.show_sender env prev true settings with
    | none => none
    | some user =>
      some { settings, cols := MessageColumns.Four, orig
             fill := width - USER_GUTTER - TIME_GUTTER - READ_GUTTER
             user, date, time := m.timestamp.show_time env
             read := (info.receipts (m.event.event_id)).getD [] }
  else if USER_GUTTER + TIME_GUTTER + MIN_MSG_LEN ≤ width then
    match m.show_sender env prev true settings with
    | none => none
    | some user =>
      some { settings, cols := MessageColumns.Three, orig
             fill := width - USER_GUTTER - TIME_GUTTER
             user, date, time := m.timestamp.show_time env, read := [] }
  else if USER_GUTTER + MIN_MSG_LEN ≤ width then
    match m.show_sender env prev true settings with
    | none => none
    | some user =>
      some { settings, cols := MessageColumns.Two, orig
             fill := width - USER_GUTTER
             user, date, time := none, read := [] }
  else
    match m.show_sender env prev false settings with
    | none => none
    | some user =>
      some { settings, cols := MessageColumns.One, orig
             fill := width - 2, user, date, time := none, read := [] }

/-- Greedy chunking of a character list into runs of at most `w + 1`
characters, with a structural fuel bound so that evaluation reduces. -/
def chunkCharsFuel : Nat → Nat → List Char → List (List Char)
  | 0, _, _ => []
  | _ + 1, _, [] => []
  | fuel + 1, w, c :: cs => (c :: cs.take w) :: chunkCharsFuel fuel w (cs.drop w)

/-- Greedy chunking of a character list into runs of at most `w + 1`
characters. Every step consumes at least one character, so the list length
bounds the number of chunks. -/
def chunkChars (w : Nat) (l : List Char) : List (List Char) :=
  chunkCharsFuel l.length w l

/-- Modelled from the spec: `util::wrapped_text` (outside this file's
source) wraps plain body text to the given width, modelled as greedy
chunking into lines of at most `width` characters; empty text yields no
lines, which is the datum the empty-body fallback in `show` observes. -/
def wrapped_text (s : String) (width : Nat) (style : Style) : Text :=
  (chunkChars (width - 1) s.data).map (fun cs => [Span.styled (String.mk cs) style])

/-- `Message::show_msg`: render the pre-parsed styled tree when present,
otherwise word-wrap the plain body (with the download check mark when the
attachment was fetched). -/
def Message.show_msg (m : Message) (width : Nat) (style : Style)
    (hide_reply : Bool) : Text :=
  match m.html with
  | some html => html.to_text width style hide_reply
  | none =>
    let msg := m.event.body
    let msg := if m.downloaded then msg ++ (" ✅") else msg
    wrapped_text msg width style

/-- Modelled from the spec: an entry of the external emoji database
(`emojis::get`), carrying its optional shortcode. -/
structure Emoji where
  shortcode : Option String

/-- Modelled from the spec: the text printer (`message::printer`, outside
this file's source) accumulates pushed fragments into styled wrapped text;
the fragment sequence is the datum the reaction rendering observes, and
`finish` closes it into one text block. -/
structure TextPrinter where
  width : Nat
  style : Style
  literal : Bool
  frags : List Span

/-- `TextPrinter::new`. -/
def TextPrinter.new (width : Nat) (style : Style) (literal : Bool) : TextPrinter :=
  { width, style, literal, frags := [] }

/-- `TextPrinter::push_str`. -/
def TextPrinter.push_str (p : TextPrinter) (s : String) (style : Style) : TextPrinter :=
  { p with frags := p.frags ++ [Span.styled s style] }

/-- `TextPrinter::push_span_nobreak`. -/
def TextPrinter.push_span_nobreak (p : TextPrinter) (sp : Span) : TextPrinter :=
  { p with frags := p.frags ++ [sp] }

/-- `TextPrinter::finish`. -/
def TextPrinter.finish (p : TextPrinter) : Text :=
  [p.frags]

/-- The label-selection rule of the reaction loop in `Message::show`: with
shortcode display on, an emoji with a shortcode shows its shortcode, an
emoji without one is skipped, and a non-emoji key shows as-is exactly when
every character is ASCII alphanumeric; with shortcode display off the raw
key is always shown. `none` means the reaction is skipped. -/
def reactionName (shortcodeDisplay : Bool) (emojiDb : String → Option Emoji)
    (key : String) : Option String :=
  if shortcodeDisplay then
    match emojiDb key with
    | some emoji =>
      match emoji.shortcode with
      | some short => some short
      | none => none
    | none =>
      if key.data.all (fun c => c.isAlphanum) then some key
      else none
  else some key

/-- The reaction loop of `Message::show`: a separator space is pushed for
every reaction once one has been rendered, then the label is selected and
the `[label count]` group is pushed unless the reaction is skipped. -/
def renderReactionsLoop (shortcodeDisplay : Bool) (emojiDb : String → Option Emoji)
    (style : Style) : List (String × Nat) → TextPrinter → Nat → TextPrinter × Nat
  | [], p, n => (p, n)
  | (key, count) :: rest, p, n =>
    let p := if n ≠ 0 then p.push_str (" ") style else p
    match reactionName shortcodeDisplay emojiDb key with
    | none => renderReactionsLoop shortcodeDisplay emojiDb style rest p n
    | some name =>
      let p :=
        ((((p.push_str ("[") style).push_str name style).push_str (" ")
          style).push_span_nobreak (Span.styled (toString count) style)).push_str ("]") style
      renderReactionsLoop shortcodeDisplay emojiDb style rest p (n + 1)

/-- The reaction block of `Message::show`: run the loop over the grouped
reactions and emit the printed text only when at least one reaction was
rendered. -/
def renderReactions (settings : ApplicationSettings) (emojiDb : String → Option Emoji)
    (width : Nat) (style : Style) (reactions : List (String × Nat)) : Option Text :=
  let r := renderReactionsLoop settings.reaction_shortcode_display emojiDb style
    reactions (TextPrinter.new width style false) 0
  if r.2 > 0 then some r.1.finish else none

/-- The body of `Message::show` once the formatter has been computed: reply
quotation, message body, empty-body fallback, reactions. -/
def Message.showWithFmt (m : Message) (emojiDb : String → Option Emoji)
    (fmt : MessageFormatter) (selected : Bool) (info : RoomInfo)
    (settings : ApplicationSettings) : Text :=
  let style := m.get_render_style selected
  let text : Text := []
  let width := fmt.fill
  let reply := (m.reply_to).bind (fun e => info.get_event e)
  let state :=
    match reply with
    | some r =>
      let w := width - 2
      let replied := r.show_msg w style true
      let sender := r.sender_span settings
      let sender_width := sender.content.length
      let trailing := w - (sender_width + 1)
      let sender := Span.styled sender.content (sender.style.patch style)
      let state := fmt.push_spans
        [Span.styled (" ") style, Span.styled THICK_VERTICAL style, sender,
          Span.styled (":") style, space_span trailing style] style text
      let replied := replied.map
        (fun line => Span.styled (" ") style :: Span.styled THICK_VERTICAL style :: line)
      state.1.push_text replied style state.2
    | none => (fmt, text)
  let state := state.1.push_text (m.show_msg width style reply.isSome) style state.2
  let state :=
    if state.2.isEmpty then state.1.push_spans [space_span width style] style state.2
    else state
  let state :=
    if settings.reaction_display then
      match renderReactions settings emojiDb width style
          (info.get_reactions (m.event.event_id)) with
      | some emojisText => state.1.push_text emojisText style state.2
      | none => state
    else state
  state.2

/-- `Message::show`: compute the formatter (whose sender handling may panic,
modelled by `none`) and render the message with it. -/
def Message.show (m : Message) (env : LocalClock) (emojiDb : String → Option Emoji)
    (prev : Option Message) (selected : Bool) (width : Nat) (info : RoomInfo)
    (settings : ApplicationSettings) : Option Text :=
  (m.get_render_format env prev width info settings).map
    (fun fmt => m.showWithFmt emojiDb fmt selected info settings)

/-- C6 (amended): the column mode is chosen widest-first by the gutter
constants (sender 30, time 12, receipt 5, minimum body 30) and the
read-receipt setting; the body fill width is at least 30 columns in the
four-, three- and two-column modes, while the one-column fallback fills
`width - 2` with saturating subtraction, rendering rather than refusing at
narrow widths. -/
theorem render_format_mode_selection (m : Message) (env : LocalClock)
    (prev : Option Message) (width : Nat) (info : RoomInfo)
    (settings : ApplicationSettings) (f : MessageFormatter)
    (hf : m.get_render_format env prev width info settings = some f) :
    (f.cols = MessageColumns.Four ↔
      (USER_GUTTER + TIME_GUTTER + READ_GUTTER + MIN_MSG_LEN ≤ width ∧
        settings.read_receipt_display = true)) ∧
    (f.cols = MessageColumns.Three ↔
      (¬ (USER_GUTTER + TIME_GUTTER + READ_GUTTER + MIN_MSG_LEN ≤ width ∧
          settings.read_receipt_display = true) ∧
        USER_GUTTER + TIME_GUTTER + MIN_MSG_LEN ≤ width)) ∧
    (f.cols = MessageColumns.Two ↔
      (¬ (USER_GUTTER + TIME_GUTTER + READ_GUTTER + MIN_MSG_LEN ≤ width ∧
          settings.read_receipt_display = true) ∧
        ¬ USER_GUTTER + TIME_GUTTER + MIN_MSG_LEN ≤ width ∧
        USER_GUTTER + MIN_MSG_LEN ≤ width)) ∧
    (f.cols = MessageColumns.One ↔
      (¬ (USER_GUTTER + TIME_GUTTER + READ_GUTTER + MIN_MSG_LEN ≤ width ∧
          settings.read_receipt_display = true) ∧
        ¬ USER_GUTTER + TIME_GUTTER + MIN_MSG_LEN ≤ width ∧
        ¬ USER_GUTTER + MIN_MSG_LEN ≤ width)) ∧
    (f.cols ≠ MessageColumns.One → MIN_MSG_LEN ≤ f.fill) ∧
    (f.cols = MessageColumns.One → f.fill = width - 2) := by
  unfold Message.get_render_format at hf
  by_cases h1 : USER_GUTTER + TIME_GUTTER + READ_GUTTER + MIN_MSG_LEN ≤ width ∧
      settings.read_receipt_display = true
  · rw [if_pos h1] at hf
    cases hs : m.show_sender env prev true settings with
    | none => rw [hs] at hf; cases hf
    | some user =>
      rw [hs] at hf
      injection hf with hf
      subst hf
      have hw := h1.1
      refine ⟨by simp [h1], by simp [h1], by simp [h1], by simp [h1], ?_, by simp⟩
      intro _
      simp only [USER_GUTTER, TIME_GUTTER, READ_GUTTER, MIN_MSG_LEN] at hw ⊢
      omega
  · rw [if_neg h1] at hf
    by_cases h2 : USER_GUTTER + TIME_GUTTER + MIN_MSG_LEN ≤ width
    · rw [if_pos h2] at hf
      cases hs : m.show_sender env prev true settings with
      | none => rw [hs] at hf; cases hf
      | some user =>
        rw [hs] at hf
        injection hf with hf
        subst hf
        refine ⟨by simp [h1], by simp [h1, h2], by simp [h2], by simp [h2], ?_, by simp⟩
        intro _
        simp only [USER_GUTTER, TIME_GUTTER, READ_GUTTER, MIN_MSG_LEN] at h2 ⊢
        omega
    · rw [if_neg h2] at hf
      by_cases h3 : USER_GUTTER + MIN_MSG_LEN ≤ width
      · rw [if_pos h3] at hf
        cases hs : m.show_sender env prev true settings with
        | none => rw [hs] at hf; cases hf
        | some user =>
          rw [hs] at hf
          injection hf with hf
          subst hf
          refine ⟨by simp [h1], by simp [h2], by simp [h1, h2, h3], by simp [h3], ?_, by simp⟩
          intro _
          simp only [USER_GUTTER, MIN_MSG_LEN] at h3 ⊢
          omega
      · rw [if_neg h3] at hf
        cases hs : m.show_sender env prev false settings with
        | none => rw [hs] at hf; cases hf
        | some user =>
          rw [hs] at hf
          injection hf with hf
          subst hf
          exact ⟨by simp [h1], by simp [h2], by simp [h3], by simp [h1, h2, h3],
            by simp, by simp⟩

/-- A concrete render settings fixture with read receipts enabled and
identity user lookups. -/
def settingsW : ApplicationSettings :=
  { read_receipt_display := true
    reaction_display := false
    reaction_shortcode_display := false
    user_span := fun u => Span.raw u
    user_char := fun u => Span.raw u }

/-- A concrete confirmed-timestamp message fixture. -/
def msgW : Message :=
  { event := MessageEvent.Local ("$w")
      { msgtype := MessageType.Text ("hi") none, relates_to := none }
    sender := ("@a")
    timestamp := MessageTimeStamp.OriginServer 1000
    downloaded := false
    html := none }

/-- A concrete clock fixture at the epoch with zero offset. -/
def envW : LocalClock := { tzOffset := 0, nowSecs := 0 }

/-- An empty room snapshot fixture. -/
def infoEmpty : RoomInfo :=
  { messages := []
    events := fun _ => none
    reactions := fun _ => []
    receipts := fun _ => none }

/-- The formatter produced for `msgW` at width 100 under `settingsW`. -/
def fW : MessageFormatter :=
  { settings := settingsW
    cols := MessageColumns.Four
    orig := 100
    fill := 53
    user := some (Span.styled (padLeftChars ("@a") 28 ++ ("  ")) {})
    date := some (Span.styled (dateLabel 0) BOLD_STYLE)
    time := some (Span.raw ("  [1]"))
    read := [] }

theorem render_format_mode_selection_witness : fW.cols = MessageColumns.Four :=
  (render_format_mode_selection msgW envW none 100 infoEmpty settingsW fW rfl).1.2
    ⟨by decide, rfl⟩

/-- C6 counterexample: at width 31 the chosen (one-column) mode fills only
29 columns, below the 30-column minimum body width the claim asserts for
every mode. -/
theorem render_format_fill_below_min :
    (Message.get_render_format msgW envW none 31 infoEmpty settingsW).map
        MessageFormatter.fill = some 29 ∧ ¬ MIN_MSG_LEN ≤ 29 :=
  ⟨rfl, by decide⟩

/-- The printed fragments of one rendered reaction group: bracket, label,
space, count, closing bracket. -/
def groupFrags (st : Style) (name : String) (count : Nat) : List Span :=
  [Span.styled ("[") st, Span.styled name st, Span.styled (" ") st,
    Span.styled (toString count) st, Span.styled ("]") st]

/-- Reference rendering once a first reaction has been rendered: every
subsequent reaction contributes a separator space, then its bracketed group
unless its label selection skipped it. -/
def renderTail (st : Style) : List (Option String × Nat) → List Span
  | [] => []
  | (none, _) :: rest => Span.styled (" ") st :: renderTail st rest
  | (some name, count) :: rest =>
    Span.styled (" ") st :: (groupFrags st name count ++ renderTail st rest)

/-- Reference rendering of a labelled reaction sequence: reactions skipped
before the first rendered one leave no trace; from the first rendered group
on, groups are separated by spaces. -/
def renderFromLabels (st : Style) : List (Option String × Nat) → List Span
  | [] => []
  | (none, _) :: rest => renderFromLabels st rest
  | (some name, count) :: rest => groupFrags st name count ++ renderTail st rest

theorem renderReactionsLoop_frags_pos (shortcodeDisplay : Bool)
    (emojiDb : String → Option Emoji) (style : Style) :
    ∀ (rs : List (String × Nat)) (p : TextPrinter) (n : Nat), n ≠ 0 →
      (renderReactionsLoop shortcodeDisplay emojiDb style rs p n).1.frags =
        p.frags ++ renderTail style
          (rs.map (fun kc => (reactionName shortcodeDisplay emojiDb kc.1, kc.2)))
  | [], p, n, _ => by simp [renderReactionsLoop, renderTail]
  | (key, count) :: rest, p, n, hn => by
    simp only [renderReactionsLoop, List.map_cons]
    rw [if_pos hn]
    cases hname : reactionName shortcodeDisplay emojiDb key with
    | none =>
      rw [renderReactionsLoop_frags_pos shortcodeDisplay emojiDb style rest _ n hn]
      simp [TextPrinter.push_str, renderTail, hname]
    | some name =>
      rw [renderReactionsLoop_frags_pos shortcodeDisplay emojiDb style rest _ (n + 1)
        (Nat.succ_ne_zero n)]
      simp [TextPrinter.push_str, TextPrinter.push_span_nobreak, renderTail, groupFrags,
        hname]

theorem renderReactionsLoop_frags_zero (shortcodeDisplay : Bool)
    (emojiDb : String → Option Emoji) (style : Style) :
    ∀ (rs : List (String × Nat)) (p : TextPrinter),
      (renderReactionsLoop shortcodeDisplay emojiDb style rs p 0).1.frags =
        p.frags ++ renderFromLabels style
          (rs.map (fun kc => (reactionName shortcodeDisplay emojiDb kc.1, kc.2)))
  | [], p => by simp [renderReactionsLoop, renderFromLabels]
  | (key, count) :: rest, p => by
    simp only [renderReactionsLoop, List.map_cons]
    rw [if_neg (by simp)]
    cases hname : reactionName shortcodeDisplay emojiDb key with
    | none =>
      rw [renderReactionsLoop_frags_zero shortcodeDisplay emojiDb style rest p]
      simp [renderFromLabels, hname]
    | some name =>
      rw [renderReactionsLoop_frags_pos shortcodeDisplay emojiDb style rest _ 1
        (Nat.one_ne_zero)]
      simp [TextPrinter.push_str, TextPrinter.push_span_nobreak, renderFromLabels,
        groupFrags, hname]

/-- C7 (amended): with shortcode display on, a reaction's label is its emoji
shortcode when the database maps it to one; a key unknown to the database is
rendered raw exactly when it is ASCII alphanumeric and skipped otherwise;
and the loop's printed fragments are exactly the bracketed
label-and-count groups of the non-skipped reactions separated by spaces
(skipped reactions after the first rendered one leave their separator
space). -/
theorem reactions_render_characterization (shortcodeDisplay : Bool)
    (emojiDb : String → Option Emoji) (style : Style) (width : Nat)
    (rs : List (String × Nat)) :
    (renderReactionsLoop shortcodeDisplay emojiDb style rs
        (TextPrinter.new width style false) 0).1.frags =
      renderFromLabels style
        (rs.map (fun kc => (reactionName shortcodeDisplay emojiDb kc.1, kc.2))) ∧
    (∀ key emoji short, emojiDb key = some emoji → emoji.shortcode = some short →
      reactionName true emojiDb key = some short) ∧
    (∀ key, emojiDb key = none → key.data.all (fun c => c.isAlphanum) = true →
      reactionName true emojiDb key = some key) ∧
    (∀ key, emojiDb key = none → key.data.all (fun c => c.isAlphanum) = false →
      reactionName true emojiDb key = none) := by
  refine ⟨?_, ?_, ?_, ?_⟩
  · rw [renderReactionsLoop_frags_zero]
    simp [TextPrinter.new]
  · intro key emoji short hdb hshort
    simp [reactionName, hdb, hshort]
  · intro key hdb hall
    simp [reactionName, hdb, hall]
  · intro key hdb hall
    simp [reactionName, hdb, hall]

/-- An emoji database fixture that knows no emoji. -/
def noEmoji : String → Option Emoji := fun _ => none

theorem reactions_render_characterization_witness :
    reactionName true noEmoji ("ok") = some ("ok") :=
  (reactions_render_characterization true noEmoji {} 20 []).2.2.1 ("ok") rfl (by decide)

/-- Printable ASCII characters (the claim's wording). -/
def isPrintableAscii (c : Char) : Bool :=
  decide (0x20 ≤ c.toNat) && decide (c.toNat ≤ 0x7e)

/-- The label-selection rule exactly as the claim words it: the emoji
shortcode when a known mapping exists, else the raw key when it is printable
ASCII, else skip the reaction. -/
def reactionNameClaim (shortcodeDisplay : Bool) (emojiDb : String → Option Emoji)
    (key : String) : Option String :=
  if shortcodeDisplay then
    match emojiDb key with
    | some emoji =>
      match emoji.shortcode with
      | some short => some short
      | none => none
    | none =>
      if key.data.all isPrintableAscii then some key
      else none
  else some key

/-- C7 counterexample: the printable-ASCII key "+1", unknown to the emoji
database, is skipped by the code although the claim's rule renders it: the
code's label rule disagrees with the claim's, and the loop prints no
fragments where the claim requires the bracketed group. -/
theorem reactions_printable_ascii_skipped :
    reactionName true noEmoji ("+1") = none ∧
    reactionNameClaim true noEmoji ("+1") = some ("+1") ∧
    (renderReactionsLoop true noEmoji {} [(("+1"), 2)]
        (TextPrinter.new 20 {} false) 0).1.frags = [] ∧
    renderFromLabels {} [(reactionNameClaim true noEmoji ("+1"), 2)] =
      groupFrags {} ("+1") 2 :=
  ⟨by decide, by decide, by decide, by decide⟩

/-- A 29-byte display name whose byte 28 falls inside its last, two-byte
character. -/
def badName : String :=
  String.mk (List.replicate 27 ('a')) ++ ("é")

/-- Settings whose display-name lookup yields `badName` for every user. -/
def settingsBad : ApplicationSettings :=
  { read_receipt_display := false
    reaction_display := false
    reaction_shortcode_display := false
    user_span := fun _ => Span.raw badName
    user_char := fun u => Span.raw u }

/-- C8: rendering is not total — `show` panics (modelled as `none`) when the
sender's display name has a multi-byte character straddling byte 28, because
`show_sender` byte-slices the name at a non-boundary. -/
theorem show_panics_on_multibyte_sender :
    Message.show msgW envW noEmoji none false 80 infoEmpty settingsBad = none := by
  rfl

theorem as_datetime_confirmed (env : LocalClock) (u : Nat) :
    (MessageTimeStamp.OriginServer u).as_datetime env =
      ⟨((u / 1000 : Nat) : Int), env.tzOffset⟩ :=
  rfl

theorem show_sender_clock_congr (m : Message) (env1 env2 : LocalClock)
    (htz : env1.tzOffset = env2.tzOffset) (prev : Option Message)
    (align_right : Bool) (settings : ApplicationSettings)
    (hm : ∃ u, m.timestamp = MessageTimeStamp.OriginServer u)
    (hp : ∀ p, prev = some p → ∃ u, p.timestamp = MessageTimeStamp.OriginServer u) :
    m.show_sender env1 prev align_right settings =
      m.show_sender env2 prev align_right settings := by
  obtain ⟨u, hu⟩ := hm
  cases prev with
  | none => rfl
  | some p =>
    obtain ⟨v, hv⟩ := hp p rfl
    unfold Message.show_sender
    simp only [hu, hv]
    simp [MessageTimeStamp.same_day, MessageTimeStamp.as_datetime, millis_to_datetime,
      DateTime.localDay, htz]

/-- C9 (amended): rendering depends on the ambient clock only through
pending-timestamp resolution: a message with a confirmed timestamp whose
predecessor (if any) also has a confirmed timestamp renders identically
under any two clock readings sharing the timezone. In particular two calls
of `show` with identical arguments and identical clock observations always
produce identical styled line sequences; only a pending timestamp can make
runs on different local dates disagree. -/
theorem show_clock_independent_for_confirmed (m : Message) (env1 env2 : LocalClock)
    (htz : env1.tzOffset = env2.tzOffset) (emojiDb : String → Option Emoji)
    (prev : Option Message) (selected : Bool) (width : Nat) (info : RoomInfo)
    (settings : ApplicationSettings)
    (hm : ∃ u, m.timestamp = MessageTimeStamp.OriginServer u)
    (hp : ∀ p, prev = some p → ∃ u, p.timestamp = MessageTimeStamp.OriginServer u) :
    m.show env1 emojiDb prev selected width info settings =
      m.show env2 emojiDb prev selected width info settings := by
  unfold Message.show
  have hfmt : m.get_render_format env1 prev width info settings =
      m.get_render_format env2 prev width info settings := by
    obtain ⟨u, hu⟩ := hm
    have hsender := show_sender_clock_congr m env1 env2 htz prev true settings ⟨u, hu⟩ hp
    have hsender2 := show_sender_clock_congr m env1 env2 htz prev false settings ⟨u, hu⟩ hp
    unfold Message.get_render_format
    cases prev with
    | none =>
      simp only [hu]
      simp [MessageTimeStamp.show_date, MessageTimeStamp.show_time,
        MessageTimeStamp.as_datetime, millis_to_datetime, DateTime.localDay, htz,
        hsender, hsender2]
    | some p =>
      obtain ⟨v, hv⟩ := hp p rfl
      simp only [hu, hv]
      simp [MessageTimeStamp.same_day, MessageTimeStamp.show_date,
        MessageTimeStamp.show_time, MessageTimeStamp.as_datetime, millis_to_datetime,
        DateTime.localDay, htz, hsender, hsender2]
  rw [hfmt]

theorem show_clock_independent_witness :
    Message.show msgW ⟨0, 0⟩ noEmoji none false 80 infoEmpty settingsW =
      Message.show msgW ⟨0, 99999⟩ noEmoji none false 80 infoEmpty settingsW :=
  show_clock_independent_for_confirmed msgW ⟨0, 0⟩ ⟨0, 99999⟩ rfl noEmoji none false 80
    infoEmpty settingsW ⟨1000, rfl⟩ (fun p hp => nomatch hp)

/-- A pending-timestamp (local echo) message fixture. -/
def msgEcho : Message :=
  { event := MessageEvent.Local ("$e")
      { msgtype := MessageType.Text ("hi") none, relates_to := none }
    sender := ("@a")
    timestamp := MessageTimeStamp.LocalEcho
    downloaded := false
    html := none }

/-- C9 counterexample: with identical arguments (same predecessor, selection
flag, viewport, room snapshot and settings), a pending-timestamp message
renders differently across two runs whose local clock readings fall on
different calendar days — the date header changes. -/
theorem show_differs_across_days :
    Message.show msgEcho ⟨0, 0⟩ noEmoji none false 80 infoEmpty settingsW ≠
      Message.show msgEcho ⟨0, 86400⟩ noEmoji none false 80 infoEmpty settingsW := by
  decide

/-- A length-based stand-in for the opaque 64-bit identifier hash, injective
on the fixture identifiers. -/
def lenHash (s : String) : Nat := s.length

/-- A room snapshot fixture with two confirmed-timestamp keys. -/
def info1 : RoomInfo :=
  { messages := [(MessageTimeStamp.OriginServer 5, ("$a")),
      (MessageTimeStamp.OriginServer 7, ("$bb"))]
    events := fun _ => none
    reactions := fun _ => []
    receipts := fun _ => none }

/-- A room snapshot fixture holding one key whose confirmed timestamp is 0. -/
def infoZero : RoomInfo :=
  { messages := [(MessageTimeStamp.OriginServer 0, ("$a"))]
    events := fun _ => none
    reactions := fun _ => []
    receipts := fun _ => none }

/-- C1 counterexample: the key `(OriginServer 0, "$a")` is present in the
collection, yet `to_cursor` followed by `from_cursor` yields `none` rather
than the key — row 0 decodes as the pending marker, so the scan starts past
every confirmed key. -/
theorem roundtrip_fails_at_zero_timestamp :
    (MessageTimeStamp.OriginServer 0, ("$a")) ∈ infoZero.messages ∧
    ((MessageCursor.fromKey (MessageTimeStamp.OriginServer 0, ("$a"))).to_cursor
        lenHash infoZero).bind (fun c => MessageCursor.from_cursor lenHash c infoZero) =
      none :=
  ⟨by decide, by decide⟩

theorem to_from_cursor_roundtrip_witness :
    ((MessageCursor.fromKey (MessageTimeStamp.OriginServer 5, ("$a"))).to_cursor
        lenHash info1).bind (fun c => MessageCursor.from_cursor lenHash c info1) =
      some (MessageCursor.fromKey (MessageTimeStamp.OriginServer 5, ("$a"))) :=
  to_from_cursor_roundtrip lenHash info1 (MessageTimeStamp.OriginServer 5, ("$a"))
    (by decide) (by decide) (by decide) (by decide) (by decide)

theorem from_cursor_scan_spec_witness :
    MessageTimeStamp.ofUsize 5 = some (MessageTimeStamp.OriginServer 5) ∧
    MessageCursor.from_cursor lenHash ⟨5, 2⟩ info1 =
      from_cursor_spec lenHash 2 (MessageTimeStamp.OriginServer 5) info1 :=
  ⟨by decide, from_cursor_scan_spec lenHash ⟨5, 2⟩ info1
    (MessageTimeStamp.OriginServer 5) (by decide)⟩

theorem to_key_latest_resolution_witness :
    MessageCursor.to_key ⟨some (MessageTimeStamp.OriginServer 5, ("$a")), 0⟩ info1 =
      some (MessageTimeStamp.OriginServer 5, ("$a")) ∧
    (info1.messages ≠ [] → ∀ r : Nat, ∃ K,
      MessageCursor.to_key ⟨none, r⟩ info1 = some K ∧ K ∈ info1.messages ∧
        ∀ k ∈ info1.messages, keyCmp k K ≠ Ordering.gt) :=
  ⟨(to_key_latest_resolution info1 (by decide)).1 _ 0,
    (to_key_latest_resolution info1 (by decide)).2.2⟩

theorem timestamp_total_order_witness :
    MessageTimeStamp.cmp (MessageTimeStamp.OriginServer 1)
      (MessageTimeStamp.OriginServer 3) = Ordering.lt :=
  timestamp_total_order.2.2.1 (MessageTimeStamp.OriginServer 1)
    (MessageTimeStamp.OriginServer 2) (MessageTimeStamp.OriginServer 3)
    (by decide) (by decide)

end Iamb
